import Mathlib

set_option autoImplicit false

/-!
Verification development for the LLM_decompose_with_tool backend.

Shallow embedding of the Python modules under `src/backend` that the
claims concern: the tool framework (`core/tools/base.py`,
`core/tools/executor.py`), the builtin tools (`calculator.py`,
`code_executor.py`, `file_operations.py`), the reasoning engine
(`core/reasoning/engine.py`, `models.py`, `conversation.py`) and the
usage normalization of the LLM provider adapters.

Modelling conventions: Python numbers (int and float collapsed) are `ℚ`;
irrational float results of math functions are carried symbolically;
fallible code returns `Except`; the `ToolResult` pydantic model becomes a
polymorphic structure (metadata elided).  Where a tool's body performs
real I/O (sandboxed `exec`, filesystem access, network) the effect is
abstracted to an explicit marker so that "the tool refused before doing
anything" is a statement about the embedding.
-/

/-- `ToolResult` from `core/tools/base.py`: success flag, output and error
(metadata field elided; `α` is the output type, `ε` the error type). -/
structure ToolResultM (α : Type) (ε : Type) where
  success : Bool
  output : Option α
  error : Option ε
deriving DecidableEq, Repr

/-- `ToolResult.success_result`. -/
def success_result {α ε : Type} (out : α) : ToolResultM α ε :=
  { success := true, output := some out, error := none }

/-- `ToolResult.error_result`. -/
def error_result {α ε : Type} (e : ε) : ToolResultM α ε :=
  { success := false, output := none, error := some e }

/-! ## LLM usage normalization (`core/llm/*_provider.py`) -/

/-- `LLMUsage` from `models/llm_models.py`. -/
structure LLMUsageM where
  prompt_tokens : Nat
  completion_tokens : Nat
  total_tokens : Nat
deriving DecidableEq, Repr

/-- The `usageMetadata` dict of a Gemini backend response: each count may be
present or absent (`None` means the backend omitted the key). -/
structure GeminiUsageMeta where
  promptTokenCount : Option Nat
  candidatesTokenCount : Option Nat
  totalTokenCount : Option Nat
deriving DecidableEq, Repr

/-- Usage extraction in `GeminiProvider._convert_response`
(`gemini_provider.py` lines 209-217): every count is read with
`metadata.get(key, 0)`, so an absent key becomes `0`. -/
def geminiUsage (meta : GeminiUsageMeta) : LLMUsageM :=
  { prompt_tokens := meta.promptTokenCount.getD 0
    completion_tokens := meta.candidatesTokenCount.getD 0
    total_tokens := meta.totalTokenCount.getD 0 }

/-- Usage extraction in `AnthropicProvider._convert_response`
(`anthropic_provider.py` lines 208-215): the total is always computed as
`input_tokens + output_tokens`. -/
def anthropicUsage (input_tokens output_tokens : Nat) : LLMUsageM :=
  { prompt_tokens := input_tokens
    completion_tokens := output_tokens
    total_tokens := input_tokens + output_tokens }

/-- Usage extraction in `OpenAIProvider._convert_response` and
`GrokProvider._convert_response`: all three counts are copied verbatim
from the backend's `usage` dict. -/
def openaiUsage (prompt_tokens completion_tokens total_tokens : Nat) : LLMUsageM :=
  { prompt_tokens := prompt_tokens
    completion_tokens := completion_tokens
    total_tokens := total_tokens }

/-! ## Tool executor history and statistics (`core/tools/executor.py`) -/

/-- An `ExecutionRecord` (only the fields the statistics read). -/
structure ExecRecordM where
  toolName : String
  success : Bool
  executionTime : ℚ
deriving DecidableEq, Repr

/-- `ToolExecutor._max_history_size`. -/
def maxHistorySize : Nat := 1000

/-- The last `n` elements of a list (`xs[-n:]` in Python). -/
def lastN {α : Type} (n : Nat) (l : List α) : List α :=
  (l.reverse.take n).reverse

/-- `ToolExecutor._record_execution`: append the record, then cut the
history to its last `_max_history_size` elements when it exceeds the cap. -/
def recordExecution (hist : List ExecRecordM) (r : ExecRecordM) : List ExecRecordM :=
  let h := hist ++ [r]
  if maxHistorySize < h.length then lastN maxHistorySize h else h

/-- The aggregate counters computed by `ToolExecutor.get_statistics`
(average time and the per-tool breakdown are elided; the claim concerns
only the three counters). -/
structure ExecStatsM where
  total_executions : Nat
  successful_executions : Nat
  failed_executions : Nat
deriving DecidableEq, Repr

/-- `ToolExecutor.get_statistics`: zero counters on an empty history,
otherwise `total = len`, `successful = #successes`,
`failed = total - successful`. -/
def getStatistics (hist : List ExecRecordM) : ExecStatsM :=
  if hist.isEmpty then
    { total_executions := 0, successful_executions := 0, failed_executions := 0 }
  else
    let total := hist.length
    let successful := (hist.filter (fun r => r.success)).length
    { total_executions := total
      successful_executions := successful
      failed_executions := total - successful }

/-! ## Reasoning data models (`core/reasoning/models.py`) -/

/-- `StepType` (the `observation` member is never produced by the engine
and is omitted). -/
inductive StepTypeM where
  | thought
  | toolCall
  | toolResult
  | answer
  | errStep
deriving DecidableEq, Repr

/-- `StepStatus`. -/
inductive StepStatusM where
  | pending
  | inProgress
  | completed
  | failed
deriving DecidableEq, Repr

/-- A `ReasoningStep` (ids, timestamps and the tool-call payloads carry no
information the claims use; the step type, status and textual content do). -/
structure StepM where
  stepType : StepTypeM
  status : StepStatusM
  content : Option String := none
deriving DecidableEq, Repr

/-- `ReasoningChain` (chain id, task text, timestamps and metadata elided). -/
structure ChainM where
  steps : List StepM := []
  status : StepStatusM := .pending
  finalAnswer : Option String := none
deriving DecidableEq, Repr

/-- `ReasoningChain.add_step`. -/
def ChainM.addStep (c : ChainM) (s : StepM) : ChainM :=
  { c with steps := c.steps ++ [s] }

/-- `ReasoningChain.get_tool_calls_count`. -/
def ChainM.toolCallsCount (c : ChainM) : Nat :=
  (c.steps.filter (fun s => s.stepType = StepTypeM.toolCall)).length

/-- `ReasoningChain.is_complete`. -/
def ChainM.isComplete (c : ChainM) : Bool :=
  c.status = StepStatusM.completed || c.status = StepStatusM.failed

/-- `StopReason`. -/
inductive StopReasonM where
  | completed
  | maxIterations
  | maxToolCalls
  | timeout
  | error
  | userInterrupt
  | noProgress
deriving DecidableEq, Repr

/-- The `stats` dict built by `ReasoningResult.from_chain`
(`execution_time` is wall-clock and is elided). -/
structure RStatsM where
  total_steps : Nat
  tool_calls : Nat
  iterations : Nat
deriving DecidableEq, Repr

/-- `ReasoningResult`. -/
structure ReasoningResultM where
  chain : ChainM
  success : Bool
  finalAnswer : Option String
  stopReason : StopReasonM
  error : Option String
  stats : RStatsM
deriving DecidableEq, Repr

/-- `ReasoningResult.from_chain` (`models.py` lines 140-164):
`success = stop_reason == COMPLETED and error is None`, the final answer is
copied from the chain, and the stats are computed from the chain's steps. -/
def ReasoningResultM.fromChain (chain : ChainM) (stopReason : StopReasonM)
    (error : Option String) : ReasoningResultM :=
  { chain := chain
    success := decide (stopReason = StopReasonM.completed) && decide (error = none)
    finalAnswer := chain.finalAnswer
    stopReason := stopReason
    error := error
    stats :=
      { total_steps := chain.steps.length
        tool_calls := chain.toolCallsCount
        iterations := (chain.steps.filter (fun s => s.stepType = StepTypeM.thought)).length } }

/-! ## Conversation manager (`core/reasoning/conversation.py`) -/

/-- A `ToolCall` as the conversation manager sees it: the name plus the
serialized arguments string (`_estimate_tokens` reads `len(tc.name)` and
the length of the arguments' string form). -/
structure TCallM where
  name : String
  arguments : String
deriving DecidableEq, Repr

/-- `MessageRole` from `models/llm_models.py`. -/
inductive RoleM where
  | system
  | user
  | assistant
  | tool
deriving DecidableEq, Repr

/-- A `Message` (fields the conversation manager touches). -/
structure MessageM where
  role : RoleM
  content : Option String := none
  toolCalls : Option (List TCallM) := none
  toolCallId : Option String := none
  name : Option String := none
deriving DecidableEq, Repr

/-- Whether a message has the system role. -/
def isSystemMsg (m : MessageM) : Bool :=
  m.role = RoleM.system

/-- `ConversationManager` state. -/
structure ConvM where
  messages : List MessageM
  systemMessage : Option String
  maxMessages : Option Nat
  maxTokens : Option Nat
deriving DecidableEq, Repr

/-- Character count of one message as `_estimate_tokens` sums it:
content length plus, for each tool call, name length plus arguments length. -/
def msgChars (m : MessageM) : Nat :=
  (match m.content with
   | some c => c.length
   | none => 0) +
  (match m.toolCalls with
   | some tcs => tcs.foldl (fun a tc => a + tc.name.length + tc.arguments.length) 0
   | none => 0)

/-- `ConversationManager._estimate_tokens`: total characters divided by 4. -/
def estimateTokens (msgs : List MessageM) : Nat :=
  (msgs.foldl (fun acc m => acc + msgChars m) 0) / 4

/-- Python truthiness of an optional integer cap (`if self.max_messages:`
is false both for `None` and for `0`). -/
def truthyCap (o : Option Nat) : Bool :=
  match o with
  | some n => n ≠ 0
  | none => false

/-- The `while estimated_tokens > max_tokens and len(other_msgs) > 1` loop
of `_trim_history`: drop the oldest non-system message until the estimate
(over system plus remaining messages) fits the cap or a single non-system
message remains. -/
def tokenTrim (sys : List MessageM) (cap : Nat) : List MessageM → List MessageM
  | [] => []
  | m :: rest =>
    if cap < estimateTokens (sys ++ m :: rest) ∧ rest ≠ [] then
      tokenTrim sys cap rest
    else
      m :: rest

/-- The `if self.max_messages and len(other_msgs) > self.max_messages`
count trim of `_trim_history`: keep the last `max_messages` non-system
messages. -/
def countTrim (mmOpt : Option Nat) (other : List MessageM) : List MessageM :=
  match mmOpt with
  | some mm => if mm ≠ 0 ∧ mm < other.length then other.drop (other.length - mm) else other
  | none => other

/-- The token-cap stage of `_trim_history`: run the `while` loop when a
truthy `max_tokens` is configured. -/
def tokenTrimOpt (mtOpt : Option Nat) (sys other : List MessageM) : List MessageM :=
  match mtOpt with
  | some mt => if mt ≠ 0 then tokenTrim sys mt other else other
  | none => other

/-- `ConversationManager._trim_history` (`conversation.py` lines 146-167):
return unchanged when neither cap is truthy; otherwise split off the
system messages, apply the count trim then the token trim to the
non-system messages, and reassemble. -/
def trimHistory (conv : ConvM) : ConvM :=
  if !truthyCap conv.maxMessages && !truthyCap conv.maxTokens then conv
  else
    { conv with
      messages :=
        (conv.messages.filter (fun m => isSystemMsg m)) ++
          (tokenTrimOpt conv.maxTokens (conv.messages.filter (fun m => isSystemMsg m))
            (countTrim conv.maxMessages (conv.messages.filter (fun m => !isSystemMsg m)))) }

/-- `ConversationManager.add_system_message`: remove any existing system
message, insert the new one at index 0 (no trimming). -/
def addSystemMessage (conv : ConvM) (c : String) : ConvM :=
  { conv with
    messages :=
      ({ role := RoleM.system, content := some c } : MessageM) ::
        conv.messages.filter (fun m => !isSystemMsg m)
    systemMessage := some c }

/-- `ConversationManager.__init__`. -/
def initConv (systemMessage : Option String) (maxMessages maxTokens : Option Nat) : ConvM :=
  let base : ConvM :=
    { messages := [], systemMessage := systemMessage
      maxMessages := maxMessages, maxTokens := maxTokens }
  match systemMessage with
  | some s => addSystemMessage base s
  | none => base

/-- `ConversationManager.add_user_message`. -/
def addUserMessage (conv : ConvM) (c : String) : ConvM :=
  trimHistory { conv with
    messages := conv.messages ++ [{ role := RoleM.user, content := some c }] }

/-- `ConversationManager.add_assistant_message`. -/
def addAssistantMessage (conv : ConvM) (c : Option String)
    (tcs : Option (List TCallM)) : ConvM :=
  trimHistory { conv with
    messages := conv.messages ++ [{ role := RoleM.assistant, content := c, toolCalls := tcs }] }

/-- `ConversationManager.add_tool_result`. -/
def addToolResult (conv : ConvM) (id name c : String) : ConvM :=
  trimHistory { conv with
    messages := conv.messages ++
      [{ role := RoleM.tool, content := some c, toolCallId := some id, name := some name }] }

/-- `ConversationManager.clear`. -/
def clearConv (conv : ConvM) (keepSystem : Bool) : ConvM :=
  if keepSystem ∧ conv.systemMessage.isSome then
    match conv.messages with
    | m :: _ => if isSystemMsg m then { conv with messages := [m] } else { conv with messages := [] }
    | [] => { conv with messages := [] }
  else
    { conv with messages := [] }

/-- The role-specific public operations of the conversation manager. -/
inductive ConvOp where
  | addSystem (c : String)
  | addUser (c : String)
  | addAssistant (c : Option String) (tcs : Option (List TCallM))
  | addTool (id name c : String)
  | clearOp (keep : Bool)
deriving DecidableEq, Repr

/-- Apply one operation. -/
def applyConvOp (conv : ConvM) : ConvOp → ConvM
  | .addSystem c => addSystemMessage conv c
  | .addUser c => addUserMessage conv c
  | .addAssistant c tcs => addAssistantMessage conv c tcs
  | .addTool id name c => addToolResult conv id name c
  | .clearOp k => clearConv conv k

/-- Run a sequence of operations from a freshly initialized manager. -/
def runConvOps (init : ConvM) (ops : List ConvOp) : ConvM :=
  ops.foldl applyConvOp init

/-! ## Tool framework (`core/tools/base.py`) -/

/-- The `type` string an entry of the JSON-schema `properties` dict may
carry; `otherType` stands for an unknown or missing `type` (the Python
`elif` chain then matches nothing and the value passes). -/
inductive JTypeM where
  | stringT
  | integerT
  | numberT
  | booleanT
  | arrayT
  | objectT
  | otherType
deriving DecidableEq, Repr

/-- A JSON-ish Python value as passed in a tool-argument dict. -/
inductive JValueM where
  | strV (s : String)
  | intV (n : ℤ)
  | floatV (q : ℚ)
  | boolV (b : Bool)
  | arrV (xs : List JValueM)
  | objV (fields : List (String × JValueM))
  | nullV
deriving Repr

/-- The `isinstance` checks of `BaseTool.validate_arguments`
(`base.py` lines 145-162).  Python's `bool` is a subtype of `int`, so a
boolean passes both the `integer` and the `number` check. -/
def typeOk : JTypeM → JValueM → Bool
  | .stringT, .strV _ => true
  | .stringT, _ => false
  | .integerT, .intV _ => true
  | .integerT, .boolV _ => true
  | .integerT, _ => false
  | .numberT, .intV _ => true
  | .numberT, .floatV _ => true
  | .numberT, .boolV _ => true
  | .numberT, _ => false
  | .booleanT, .boolV _ => true
  | .booleanT, _ => false
  | .arrayT, .arrV _ => true
  | .arrayT, _ => false
  | .objectT, .objV _ => true
  | .objectT, _ => false
  | .otherType, _ => true

/-- First-match association lookup (Python dict access on the literal). -/
def lookupKey {α : Type} (l : List (String × α)) (k : String) : Option α :=
  (l.find? (fun kv => kv.1 = k)).map (fun kv => kv.2)

/-- A tool's JSON schema: the `required` name list and the
`properties` dict restricted to the declared `type` of each property. -/
structure ToolSchemaM where
  required : List String
  properties : List (String × JTypeM)
deriving DecidableEq, Repr

/-- `BaseTool.validate_arguments` (`base.py` lines 127-164): every
required key present, and every supplied value that has a declared
property type passes the primitive `isinstance` check. -/
def validateArguments (schema : ToolSchemaM) (args : List (String × JValueM)) : Bool :=
  schema.required.all (fun r => (lookupKey args r).isSome) &&
  args.all (fun kv =>
    match lookupKey schema.properties kv.1 with
    | none => true
    | some ty => typeOk ty kv.2)

/-- Errors `safe_execute` itself can report (the source formats them as
strings: `"Invalid arguments for tool '...'"`,
`"Tool execution timed out after ... seconds"`,
`"Tool execution failed: ..."`). -/
inductive SafeExecErr where
  | invalidArgs (tool : String)
  | timedOut (t : ℚ)
  | execFailed (m : String)
deriving DecidableEq, Repr

/-- What one call of a tool's `execute` body would do, together with how
long it would run: the body either returns a `ToolResult` or raises with a
message.  This is the shallow embedding of the awaited coroutine that
`safe_execute` wraps. -/
structure ToolBehavior (α : Type) where
  duration : ℚ
  outcome : Except String (ToolResultM α SafeExecErr)

/-- Python truthiness of the `timeout` argument combined with
`asyncio.wait_for` expiry: `if timeout:` is false for `None` and `0.0`,
and an applied `wait_for` cancels exactly when the body runs longer than
the timeout. -/
def timeoutExpired (timeout : Option ℚ) (duration : ℚ) : Bool :=
  match timeout with
  | some t => t ≠ 0 && t < duration
  | none => false

/-- `BaseTool.safe_execute` (`base.py` lines 166-208): validate first and
fail without running; then run under the (truthy) timeout, converting a
`wait_for` expiry or a raised exception into a failed `ToolResult`. -/
def safeExecute {α : Type} (toolName : String) (schema : ToolSchemaM)
    (behavior : ToolBehavior α) (args : List (String × JValueM))
    (timeout : Option ℚ) : ToolResultM α SafeExecErr :=
  if !validateArguments schema args then
    error_result (SafeExecErr.invalidArgs toolName)
  else if timeoutExpired timeout behavior.duration then
    error_result (SafeExecErr.timedOut (timeout.getD 0))
  else
    match behavior.outcome with
    | .ok r => r
    | .error m => error_result (SafeExecErr.execFailed m)

/-! ## File operations tool (`core/tools/builtin/file_operations.py`) -/

/-- The operation argument of the filesystem tool. -/
inductive FileOpM where
  | readOp
  | writeOp
  | appendOp
  | listOp
  | existsOp
  | deleteOp
deriving DecidableEq, Repr

/-- A path argument: absolute or relative, as a component list. -/
structure PathArg where
  absolute : Bool
  parts : List String
deriving DecidableEq, Repr

/-- `Path(path_str)` joined onto the workspace when relative
(`if not path.is_absolute(): path = self.workspace_dir / path`). -/
def makeAbs (workspace : List String) (p : PathArg) : List String :=
  if p.absolute then p.parts else workspace ++ p.parts

/-- `FileOperationsTool._resolve_path` (`file_operations.py` lines
116-144), parameterized by the behavior of `Path.resolve` (which
normalizes `..`, `.` and follows symlinks; the theorem quantifies over
it).  `path.relative_to(base)` succeeds exactly when `base` is a
component-prefix of `path`. -/
def resolvePathF (resolve : List String → List String)
    (workspace : List String) (p : PathArg) : Except String (List String) :=
  let path := makeAbs workspace p
  let r := resolve path
  if (resolve workspace).isPrefixOf r then Except.ok r
  else Except.error "path outside workspace"

/-- One concrete `Path.resolve` behavior for witnesses: a symlink-free
filesystem, where resolving just normalizes `.` and `..` components. -/
def normalizeResolve (path : List String) : List String :=
  path.foldl
    (fun acc comp =>
      if comp = ".." then acc.dropLast
      else if comp = "." then acc
      else acc ++ [comp]) []

/-- A record that the tool touched the filesystem: which operation ran at
which resolved path.  The bodies (`_read_file`, `_write_file`, ...) are
abstracted to this marker plus a success result; the claim is about what
happens before they are reached. -/
structure FsAccess where
  op : FileOpM
  path : List String
deriving DecidableEq, Repr

/-- `FileOperationsTool.execute` (`file_operations.py` lines 74-114):
resolve the path; on a `ValueError` from `_resolve_path` return
`error_result` having touched nothing, otherwise dispatch to the
operation (whose filesystem effect is recorded). -/
def executeFileOp (resolve : List String → List String)
    (workspace : List String) (op : FileOpM) (p : PathArg) :
    ToolResultM String String × List FsAccess :=
  match resolvePathF resolve workspace p with
  | .error e => (error_result e, [])
  | .ok path => (success_result "operation dispatched", [{ op := op, path := path }])

/-! ## Code executor tool (`core/tools/builtin/code_executor.py`) -/

/-- `CodeExecutorTool.SAFE_MODULES`. -/
def SAFE_MODULES : List String :=
  ["math", "random", "datetime", "json", "itertools", "collections",
   "functools", "re", "string", "decimal", "fractions"]

/-- The `dangerous_funcs` set of `_is_safe_code` (note: the source also
includes `raw_input`). -/
def dangerousFuncs : List String :=
  ["exec", "eval", "compile", "__import__", "open", "input", "raw_input"]

/-- The `dangerous_attrs` set of `_is_safe_code`. -/
def dangerousAttrs : List String :=
  ["__dict__", "__class__", "__bases__", "__subclasses__",
   "__globals__", "__code__", "__closure__"]

/-- The AST node shapes `_is_safe_code` inspects, with the child nodes
that `ast.walk` would visit below them.  `callN` records the identifier
when the callee is a bare `Name` (otherwise `none`); all node kinds it
does not inspect collapse to `otherN`. -/
inductive CNode where
  | importN (names : List String)
  | importFromN (mod : Option String) (children : List CNode)
  | callN (funcName : Option String) (children : List CNode)
  | attributeN (attr : String) (children : List CNode)
  | otherN (children : List CNode)
deriving Repr

/-- `alias.name.split('.')[0]` / `node.module.split('.')[0]`. -/
def topModule (s : String) : String :=
  String.mk (s.toList.takeWhile (fun c => c ≠ '.'))

/-- The per-node rejection test inside the `ast.walk` loop of
`CodeExecutorTool._is_safe_code` (`code_executor.py` lines 222-256). -/
def nodeOk (allowImports : Bool) : CNode → Bool
  | .importN names =>
      allowImports && names.all (fun nm => SAFE_MODULES.contains (topModule nm))
  | .importFromN mod _ =>
      allowImports &&
        (match mod with
         | some m => SAFE_MODULES.contains (topModule m)
         | none => true)
  | .callN f _ =>
      match f with
      | some id => !dangerousFuncs.contains id
      | none => true
  | .attributeN a _ => !dangerousAttrs.contains a
  | .otherN _ => true

mutual

/-- `ast.walk` over one node: the node itself and, recursively, its
children. -/
def walkNode : CNode → List CNode
  | .importN names => [.importN names]
  | .importFromN mod cs => .importFromN mod cs :: walkNodes cs
  | .callN f cs => .callN f cs :: walkNodes cs
  | .attributeN a cs => .attributeN a cs :: walkNodes cs
  | .otherN cs => .otherN cs :: walkNodes cs

/-- `ast.walk` over a child list. -/
def walkNodes : List CNode → List CNode
  | [] => []
  | n :: ns => walkNode n ++ walkNodes ns

end

/-- All nodes of a parsed module body (`ast.walk(tree)` up to order,
which the all-nodes check does not depend on). -/
def walkProgram (prog : List CNode) : List CNode :=
  walkNodes prog

/-- `CodeExecutorTool._is_safe_code` on an already-parsed module: the
source returns `False` at the first offending node of `ast.walk`,
equivalently all walked nodes pass `nodeOk` (parse errors are a string
concern and are elided: the input here is the AST). -/
def isSafeCode (allowImports : Bool) (prog : List CNode) : Bool :=
  (walkProgram prog).all (nodeOk allowImports)

/-- Outcome of `CodeExecutorTool._execute_python` (lines 113-129): either
the pre-execution screen rejects and nothing runs, or the program is
handed to the sandboxed `exec` (whose behavior is outside the model). -/
inductive ExecOutcome where
  | rejected (res : ToolResultM String String)
  | executed
deriving DecidableEq, Repr

/-- `_execute_python`'s screening gate: `if not self._is_safe_code(code):
return ToolResult.error_result(...)` before any compilation or execution. -/
def executePython (allowImports : Bool) (prog : List CNode) : ExecOutcome :=
  if isSafeCode allowImports prog then ExecOutcome.executed
  else ExecOutcome.rejected (error_result "unsafe code or imports")

/-- The three rejection categories exactly as claim C2 words them: a bad
top-level import, a call to one of the six dangerous names, or an access
to a reflective dunder attribute. -/
def claimBadNode (n : CNode) : Bool :=
  match n with
  | .importN names => names.any (fun nm => !SAFE_MODULES.contains (topModule nm))
  | .importFromN (some m) _ => !SAFE_MODULES.contains (topModule m)
  | .importFromN none _ => false
  | .callN (some f) _ =>
      (["exec", "eval", "compile", "__import__", "open", "input"] : List String).contains f
  | .callN none _ => false
  | .attributeN a _ => dangerousAttrs.contains a
  | .otherN _ => false

/-! ## Calculator tool (`core/tools/builtin/calculator.py`) -/

/-- The binary operator of an `ast.BinOp` node.  `bitOr` stands for the
operator kinds (`|`, `&`, `<<`, ...) that are absent from
`SAFE_OPERATORS`. -/
inductive BinOpKind where
  | addK
  | subK
  | multK
  | divK
  | floorDivK
  | modK
  | powK
  | bitOrK
deriving DecidableEq, Repr

/-- The operator of an `ast.UnaryOp` node; `notK` and `invertK` are the
kinds absent from `SAFE_OPERATORS`. -/
inductive UnaryOpKind where
  | usubK
  | uaddK
  | notK
  | invertK
deriving DecidableEq, Repr

/-- Membership of the binary operator in `CalculatorTool.SAFE_OPERATORS`. -/
def safeBinOp : BinOpKind → Bool
  | .bitOrK => false
  | _ => true

/-- Membership of the unary operator in `CalculatorTool.SAFE_OPERATORS`. -/
def safeUnaryOp : UnaryOpKind → Bool
  | .usubK => true
  | .uaddK => true
  | _ => false

/-- The expression AST (`ast.parse(expr, mode='eval').body`) restricted to
the node kinds `_eval_node` distinguishes, plus representatives of the
kinds it rejects (`lambdaE`, `attributeE`).  A `Call` node carries its
positional arguments and its keyword arguments; the latter exist in the
Python AST but `_eval_node` never reads `node.keywords`. -/
inductive PyExpr where
  | constNum (q : ℚ)
  | constStr (s : String)
  | constBool (b : Bool)
  | constNone
  | nameE (id : String)
  | binOp (op : BinOpKind) (left right : PyExpr)
  | unaryOp (op : UnaryOpKind) (operand : PyExpr)
  | callE (func : PyExpr) (args : List PyExpr) (keywords : List (String × PyExpr))
  | listE (elts : List PyExpr)
  | tupleE (elts : List PyExpr)
  | lambdaE
  | attributeE (value : PyExpr) (attr : String)
deriving Repr

/-- Values the evaluator can produce.  `realV tag args` is a symbolic
irrational float (`sqrt`, `sin`, `pi`, ...): which real it denotes is
irrelevant to every claim, only that the evaluation succeeded. -/
inductive PyVal where
  | num (q : ℚ)
  | strV (s : String)
  | boolV (b : Bool)
  | noneV
  | listV (vs : List PyVal)
  | tupleV (vs : List PyVal)
  | realV (tag : String) (args : List PyVal)
deriving Repr

/-- The exceptions `execute` catches: `ValueError` (unsafe expression,
math domain errors), `ZeroDivisionError`, and any other exception
(`TypeError` from bad operand types or arities). -/
inductive CalcErr where
  | valueErr (msg : String)
  | zeroDiv
  | typeErr (msg : String)
deriving DecidableEq, Repr

/-- Python's numeric view of a value: ints, floats and booleans
(`True == 1`, `False == 0`) are numbers. -/
def toNumQ : PyVal → Option ℚ
  | .num q => some q
  | .boolV b => some (if b then 1 else 0)
  | _ => none

/-- Application of a `SAFE_OPERATORS` binary operator (`operator.add`
etc.).  Numeric semantics are exact over `ℚ`; `+` also concatenates two
strings, two lists or two tuples; every other operand combination raises
`TypeError` (sequence repetition by `*` is not modeled — no claim touches
it).  `/`, `//` and `%` raise `ZeroDivisionError` on a zero divisor; `**`
with a non-integer exponent is an irrational float, kept symbolic. -/
def binApply (op : BinOpKind) (l r : PyVal) : Except CalcErr PyVal :=
  match toNumQ l, toNumQ r with
  | some a, some b =>
    match op with
    | .addK => .ok (.num (a + b))
    | .subK => .ok (.num (a - b))
    | .multK => .ok (.num (a * b))
    | .divK => if b = 0 then .error .zeroDiv else .ok (.num (a / b))
    | .floorDivK => if b = 0 then .error .zeroDiv else .ok (.num ((⌊a / b⌋ : ℤ) : ℚ))
    | .modK => if b = 0 then .error .zeroDiv else .ok (.num (a - b * ((⌊a / b⌋ : ℤ) : ℚ)))
    | .powK =>
      if b.den = 1 then
        if a = 0 ∧ b.num < 0 then .error .zeroDiv
        else .ok (.num (a ^ b.num))
      else .ok (.realV "pow" [l, r])
    | .bitOrK => .error (.typeErr "operator not modeled")
  | _, _ =>
    match op, l, r with
    | .addK, .strV x, .strV y => .ok (.strV (x ++ y))
    | .addK, .listV x, .listV y => .ok (.listV (x ++ y))
    | .addK, .tupleV x, .tupleV y => .ok (.tupleV (x ++ y))
    | _, _, _ => .error (.typeErr "unsupported operand type")

/-- Application of a `SAFE_OPERATORS` unary operator. -/
def unApply (op : UnaryOpKind) (v : PyVal) : Except CalcErr PyVal :=
  match toNumQ v with
  | some a =>
    match op with
    | .usubK => .ok (.num (-a))
    | .uaddK => .ok (.num a)
    | _ => .error (.typeErr "operator not modeled")
  | none => .error (.typeErr "unsupported operand type")

/-- The names of `CalculatorTool.SAFE_FUNCTIONS`. -/
def SAFE_FUNCTIONS : List String :=
  ["abs", "round", "min", "max", "sum",
   "sqrt", "sin", "cos", "tan", "asin", "acos", "atan",
   "sinh", "cosh", "tanh", "log", "log10", "log2", "exp",
   "pow", "ceil", "floor", "factorial", "gcd", "degrees", "radians"]

/-- `CalculatorTool.SAFE_CONSTANTS` (`pi`, `e`, `tau` are irrational and
`inf` is not a rational, so all four are symbolic reals). -/
def SAFE_CONSTANTS : List (String × PyVal) :=
  [("pi", .realV "pi" []), ("e", .realV "e" []),
   ("tau", .realV "tau" []), ("inf", .realV "inf" [])]

/-- All-numeric view of an argument list. -/
def allNums (vs : List PyVal) : Option (List ℚ) :=
  vs.mapM toNumQ

/-- `min`/`max` accept either one iterable or several scalars. -/
def minMaxItems (vs : List PyVal) : List PyVal :=
  match vs with
  | [PyVal.listV xs] => xs
  | [PyVal.tupleV xs] => xs
  | _ => vs

/-- Application of a `SAFE_FUNCTIONS` entry to evaluated positional
arguments.  Exact where the Python result is exact on our value model
(`abs`, `min`, `max`, `sum`, `ceil`, `floor`, `factorial`, `gcd`,
integer `pow`); `math` domain errors raise `ValueError`; transcendental
results are symbolic; arity and type mismatches raise `TypeError`
(multi-argument `round` and the start argument of `sum` are not modeled —
no claim depends on them). -/
def applyFunc (name : String) (args : List PyVal) : Except CalcErr PyVal :=
  if name = "abs" then
    match args with
    | [v] =>
      match toNumQ v with
      | some a => .ok (.num |a|)
      | none => .error (.typeErr "bad operand")
    | _ => .error (.typeErr "bad arity")
  else if name = "round" then
    match args with
    | [v] =>
      match toNumQ v with
      | some a => .ok (.num ((round a : ℤ) : ℚ))
      | none => .error (.typeErr "bad operand")
    | _ => .error (.typeErr "bad arity")
  else if name = "min" ∨ name = "max" then
    match allNums (minMaxItems args) with
    | some (q :: qs) =>
        .ok (.num (qs.foldl (fun acc x => if name = "min" then min acc x else max acc x) q))
    | some [] => .error (.valueErr "empty sequence")
    | none => .error (.typeErr "bad operand")
  else if name = "sum" then
    match args with
    | [PyVal.listV xs] | [PyVal.tupleV xs] =>
      match allNums xs with
      | some qs => .ok (.num (qs.foldl (fun a b => a + b) 0))
      | none => .error (.typeErr "bad operand")
    | _ => .error (.typeErr "bad operand")
  else if name = "sqrt" then
    match args with
    | [v] =>
      match toNumQ v with
      | some a => if a < 0 then .error (.valueErr "math domain error")
                  else .ok (.realV "sqrt" [.num a])
      | none => .error (.typeErr "bad operand")
    | _ => .error (.typeErr "bad arity")
  else if name = "log" ∨ name = "log10" ∨ name = "log2" then
    match args with
    | [v] =>
      match toNumQ v with
      | some a => if a ≤ 0 then .error (.valueErr "math domain error")
                  else .ok (.realV name [.num a])
      | none => .error (.typeErr "bad operand")
    | [v, w] =>
      if name = "log" then
        match toNumQ v, toNumQ w with
        | some a, some b =>
            if a ≤ 0 ∨ b ≤ 0 then .error (.valueErr "math domain error")
            else .ok (.realV "log" [.num a, .num b])
        | _, _ => .error (.typeErr "bad operand")
      else .error (.typeErr "bad arity")
    | _ => .error (.typeErr "bad arity")
  else if name = "asin" ∨ name = "acos" then
    match args with
    | [v] =>
      match toNumQ v with
      | some a => if a < -1 ∨ 1 < a then .error (.valueErr "math domain error")
                  else .ok (.realV name [.num a])
      | none => .error (.typeErr "bad operand")
    | _ => .error (.typeErr "bad arity")
  else if name = "sin" ∨ name = "cos" ∨ name = "tan" ∨ name = "atan" ∨
          name = "sinh" ∨ name = "cosh" ∨ name = "tanh" ∨ name = "exp" ∨
          name = "degrees" ∨ name = "radians" then
    match args with
    | [v] =>
      match toNumQ v with
      | some a => .ok (.realV name [.num a])
      | none => .error (.typeErr "bad operand")
    | _ => .error (.typeErr "bad arity")
  else if name = "pow" then
    match args with
    | [v, w] => binApply .powK v w
    | _ => .error (.typeErr "bad arity")
  else if name = "ceil" then
    match args with
    | [v] =>
      match toNumQ v with
      | some a => .ok (.num ((⌈a⌉ : ℤ) : ℚ))
      | none => .error (.typeErr "bad operand")
    | _ => .error (.typeErr "bad arity")
  else if name = "floor" then
    match args with
    | [v] =>
      match toNumQ v with
      | some a => .ok (.num ((⌊a⌋ : ℤ) : ℚ))
      | none => .error (.typeErr "bad operand")
    | _ => .error (.typeErr "bad arity")
  else if name = "factorial" then
    match args with
    | [v] =>
      match toNumQ v with
      | some a =>
          if a.den = 1 ∧ 0 ≤ a.num then .ok (.num ((Nat.factorial a.num.toNat : ℕ) : ℚ))
          else .error (.valueErr "factorial of a non-natural")
      | none => .error (.typeErr "bad operand")
    | _ => .error (.typeErr "bad arity")
  else if name = "gcd" then
    match allNums args with
    | some qs =>
        if qs.all (fun q => q.den = 1) then
          .ok (.num ((qs.foldl (fun acc q => Nat.gcd acc q.num.natAbs) 0 : ℕ) : ℚ))
        else .error (.typeErr "gcd needs integers")
    | none => .error (.typeErr "bad operand")
  else
    .error (.typeErr "not a modeled function")

mutual

/-- `CalculatorTool._eval_node` (`calculator.py` lines 154-204):
constants evaluate to themselves; a `Name` must be a `SAFE_CONSTANTS`
key; a `BinOp`/`UnaryOp` operator must be in `SAFE_OPERATORS` (checked
before the operands are evaluated); a `Call` must have a bare
`SAFE_FUNCTIONS` name as callee (checked before the arguments are
evaluated, and the keyword arguments are ignored, as in the source);
`List` and `Tuple` literals evaluate elementwise; every other node kind
raises `ValueError`. -/
def evalNode : PyExpr → Except CalcErr PyVal
  | .constNum q => .ok (.num q)
  | .constStr s => .ok (.strV s)
  | .constBool b => .ok (.boolV b)
  | .constNone => .ok .noneV
  | .nameE id =>
    match lookupKey SAFE_CONSTANTS id with
    | some v => .ok v
    | none => .error (.valueErr ("unknown constant: " ++ id))
  | .binOp op l r =>
    if safeBinOp op then
      match evalNode l with
      | .error err => .error err
      | .ok lv =>
        match evalNode r with
        | .error err => .error err
        | .ok rv => binApply op lv rv
    else .error (.valueErr "unsupported operation")
  | .unaryOp op e =>
    if safeUnaryOp op then
      match evalNode e with
      | .error err => .error err
      | .ok v => unApply op v
    else .error (.valueErr "unsupported operation")
  | .callE f args _kws =>
    match f with
    | .nameE fn =>
      if SAFE_FUNCTIONS.contains fn then
        match evalArgs args with
        | .error err => .error err
        | .ok vs => applyFunc fn vs
      else .error (.valueErr ("unknown function: " ++ fn))
    | _ => .error (.valueErr "unsupported function call")
  | .listE elts =>
    match evalArgs elts with
    | .error err => .error err
    | .ok vs => .ok (.listV vs)
  | .tupleE elts =>
    match evalArgs elts with
    | .error err => .error err
    | .ok vs => .ok (.tupleV vs)
  | .lambdaE => .error (.valueErr "unsupported expression type")
  | .attributeE _ _ => .error (.valueErr "unsupported expression type")

/-- Elementwise evaluation of argument and element lists
(`[self._eval_node(arg) for arg in node.args]`): the first raised
exception propagates. -/
def evalArgs : List PyExpr → Except CalcErr (List PyVal)
  | [] => .ok []
  | e :: es =>
    match evalNode e with
    | .error err => .error err
    | .ok v =>
      match evalArgs es with
      | .error err => .error err
      | .ok vs => .ok (v :: vs)

end

/-- `CalculatorTool.execute` (`calculator.py` lines 99-129) after the
string front end (`strip`, emptiness check, `ast.parse`): every
exception the evaluation raises is caught and turned into a failed
`ToolResult`; a successful evaluation is a success result. -/
def calcExecute (e : PyExpr) : ToolResultM PyVal CalcErr :=
  match evalNode e with
  | .ok v => success_result v
  | .error err => error_result err

mutual

/-- The allow-list the evaluator actually enforces: every node is a
constant literal of any type, a `SAFE_CONSTANTS` name, a safe
binary/unary operation, a call of a `SAFE_FUNCTIONS` name (keyword
argument subtrees are never evaluated and do not count), or a list/tuple
literal. -/
def allowedExpr : PyExpr → Bool
  | .constNum _ => true
  | .constStr _ => true
  | .constBool _ => true
  | .constNone => true
  | .nameE id => (lookupKey SAFE_CONSTANTS id).isSome
  | .binOp op l r => safeBinOp op && allowedExpr l && allowedExpr r
  | .unaryOp op e => safeUnaryOp op && allowedExpr e
  | .callE f args _kws =>
    match f with
    | .nameE fn => SAFE_FUNCTIONS.contains fn && allowedList args
    | _ => false
  | .listE elts => allowedList elts
  | .tupleE elts => allowedList elts
  | .lambdaE => false
  | .attributeE _ _ => false

/-- `allowedExpr` over a list of subexpressions. -/
def allowedList : List PyExpr → Bool
  | [] => true
  | e :: es => allowedExpr e && allowedList es

end

mutual

/-- The allow-list exactly as claim C1 words it: numeric literals, the
fixed operator set, calls to allow-listed function names, and reads of
the allowed constants — nothing else (no string/boolean/None literals,
no list or tuple literals). -/
def claimAllowedExpr : PyExpr → Bool
  | .constNum _ => true
  | .nameE id => (lookupKey SAFE_CONSTANTS id).isSome
  | .binOp op l r => safeBinOp op && claimAllowedExpr l && claimAllowedExpr r
  | .unaryOp op e => safeUnaryOp op && claimAllowedExpr e
  | .callE f args _kws =>
    match f with
    | .nameE fn => SAFE_FUNCTIONS.contains fn && claimAllowedList args
    | _ => false
  | _ => false

/-- `claimAllowedExpr` over a list of subexpressions. -/
def claimAllowedList : List PyExpr → Bool
  | [] => true
  | e :: es => claimAllowedExpr e && claimAllowedList es

end

/-! ## Final-answer extraction (`core/reasoning/conversation.py` lines 233-262) -/

/-- `str.lower()` on the character lists used here (ASCII letters are
lowered; CJK characters are unaffected, matching Python). -/
def lowerChars (s : List Char) : List Char :=
  s.map Char.toLower

/-- Leftmost occurrence index of `pat` in `hay` (`str.index` after an
`in` check). -/
def findSub : List Char → List Char → Option Nat
  | [], pat => if pat.isEmpty then some 0 else none
  | c :: rest, pat =>
    if pat.isPrefixOf (c :: rest) then some 0
    else (findSub rest pat).map (fun n => n + 1)

/-- ASCII whitespace for `str.strip()` (the only whitespace appearing in
the strings the engine handles). -/
def isSpaceChar (c : Char) : Bool :=
  c = ' ' || c = '\t' || c = '\n' || c = '\r'

/-- `str.strip()`. -/
def stripChars (s : List Char) : List Char :=
  ((s.dropWhile isSpaceChar).reverse.dropWhile isSpaceChar).reverse

/-- The prefix-cleanup loop of `extract_final_answer`: for each of the
four one-character prefixes in order, drop it if present and re-strip. -/
def cleanAnswer (a : List Char) : List Char :=
  ([ '-', ':', '：', '—' ] : List Char).foldl
    (fun acc p =>
      match acc with
      | c :: rest => if c = p then stripChars rest else acc
      | [] => acc) a

/-- `extract_final_answer` over character lists: first stop phrase whose
lowercase form occurs in the lowercase text wins; the answer is the text
after the occurrence, stripped and prefix-cleaned. -/
def extractAnswerL (text : List Char) : List (List Char) → Option (List Char)
  | [] => none
  | p :: ps =>
    match findSub (lowerChars text) (lowerChars p) with
    | some pos => some (cleanAnswer (stripChars (text.drop (pos + p.length))))
    | none => extractAnswerL text ps

/-- `extract_final_answer` on strings. -/
def extractFinalAnswer (text : String) (phrases : List String) : Option String :=
  (extractAnswerL text.toList (phrases.map String.toList)).map (fun l => String.mk l)

/-! ## Reasoning engine (`core/reasoning/engine.py`) -/

/-- A tool call in an assistant turn (the engine only iterates over them;
ids and argument payloads do not influence control flow). -/
structure ToolCallE where
  name : String
  arguments : String
deriving DecidableEq, Repr

/-- One behavior of `self.llm_provider.complete(...)` per iteration: a
normal response with optional text, tool calls and a wall-clock duration
in seconds, or a raised `asyncio.TimeoutError`, or any other raised
exception.  The duration models how long the awaited call took; the
engine itself never reads a clock. -/
inductive ProviderTurn where
  | reply (content : Option String) (toolCalls : List ToolCallE) (duration : ℚ)
  | raiseTimeoutE (duration : ℚ)
  | raiseOther (msg : String) (duration : ℚ)
deriving DecidableEq, Repr

/-- Wall-clock duration of one provider turn. -/
def turnDuration : ProviderTurn → ℚ
  | .reply _ _ d => d
  | .raiseTimeoutE d => d
  | .raiseOther _ d => d

/-- `ReasoningConfig` (`models.py` lines 101-117) restricted to the
fields `solve` reads, with the source's defaults.  Note `timeout` is a
field of the config; whether `solve` ever reads it is exactly what claim
C4 is about. -/
structure ReasoningConfigM where
  maxIterations : Nat := 10
  maxToolCalls : Nat := 20
  timeout : ℚ := 300
  stopPhrases : List String := ["Final Answer:", "FINAL ANSWER:", "最终答案：", "答案："]
deriving DecidableEq, Repr

/-- Python truthiness of an optional string (`if assistant_message.content:`,
`if final_answer:`). -/
def truthyOptStr (o : Option String) : Bool :=
  match o with
  | some s => s ≠ ""
  | none => false

/-- `ReasoningEngine._handle_tool_calls` as the chain sees it: for each tool
call a TOOL_CALL step (final status completed) and a TOOL_RESULT step are
appended; the tool executor returns a result rather than raising, so the
error branch is not taken.  Conversation bookkeeping does not affect the
chain or the stop reason and is elided. -/
def handleToolCalls (chain : ChainM) (tcs : List ToolCallE) : ChainM :=
  tcs.foldl
    (fun ch _tc =>
      (ch.addStep { stepType := .toolCall, status := .completed }).addStep
        { stepType := .toolResult, status := .completed })
    chain

/-- The `if assistant_message.content:` block of `solve` (engine.py lines
133-153): on truthy content, extract a final answer; a truthy answer
breaks the loop (right injection), otherwise a THOUGHT step is appended
and the local variable `final_answer` becomes bound (left injection:
updated chain and `final_answer` binding). -/
def contentBlock (cfg : ReasoningConfigM) (chain : ChainM)
    (faVar : Option (Option String)) (content : Option String) :
    (ChainM × Option (Option String)) ⊕ String :=
  match content with
  | none => Sum.inl (chain, faVar)
  | some c =>
    if c = "" then Sum.inl (chain, faVar)
    else
      let fa := extractFinalAnswer c cfg.stopPhrases
      if truthyOptStr fa then Sum.inr (fa.getD "")
      else
        Sum.inl
          (chain.addStep { stepType := .thought, status := .completed, content := some c },
           some fa)

/-- Output of the reasoning loop: the chain, the `stop_reason` and
`error_msg` variables at loop exit, and how many provider turns were
consumed. -/
structure LoopOut where
  chain : ChainM
  stopReason : StopReasonM
  error : Option String
  consumed : Nat
deriving DecidableEq, Repr

/-- The `for iteration in range(self.config.max_iterations)` loop of
`ReasoningEngine.solve` (engine.py lines 108-188).  `remaining` counts
the iterations still available, so `remaining = 0` at entry is loop-range
exhaustion (where `stop_reason` holds the value the last
`_check_stop_conditions` assigned, `COMPLETED`), and inside an iteration
`remaining = 0` for the tail is `iteration >= max_iterations - 1`.
`faVar = none` models the local `final_answer` being unbound (reading it
then raises `NameError`, landing in the generic `except` with
`StopReason.ERROR`); script exhaustion models the provider call raising. -/
def solveLoop (cfg : ReasoningConfigM) :
    ChainM → Option (Option String) → List ProviderTurn → Nat → Nat → LoopOut
  | chain, _, _, consumed, 0 => ⟨chain, .completed, none, consumed⟩
  | chain, faVar, script, consumed, remaining + 1 =>
    if cfg.maxToolCalls ≤ chain.toolCallsCount then ⟨chain, .maxToolCalls, none, consumed⟩
    else if chain.isComplete then ⟨chain, .completed, none, consumed⟩
    else
      match script with
      | [] =>
        ⟨chain.addStep { stepType := .errStep, status := .failed }, .error,
          some "Error during reasoning: provider unavailable", consumed⟩
      | turn :: rest =>
        match turn with
        | .raiseTimeoutE _ =>
          ⟨chain, .timeout, some "Reasoning exceeded time limit", consumed + 1⟩
        | .raiseOther m _ =>
          ⟨chain.addStep { stepType := .errStep, status := .failed }, .error,
            some ("Error during reasoning: " ++ m), consumed + 1⟩
        | .reply content toolCalls _ =>
          match contentBlock cfg chain faVar content with
          | .inr ans =>
            let chain2 :=
              { chain.addStep { stepType := .answer, status := .completed, content := some ans } with
                finalAnswer := some ans, status := .completed }
            ⟨chain2, .completed, none, consumed + 1⟩
          | .inl (chain1, faVar1) =>
            if toolCalls.isEmpty then
              match faVar1 with
              | none =>
                ⟨chain1.addStep { stepType := .errStep, status := .failed }, .error,
                  some "Error during reasoning: final_answer is not defined", consumed + 1⟩
              | some fa =>
                if truthyOptStr fa then
                  solveLoop cfg chain1 faVar1 rest (consumed + 1) remaining
                else if remaining = 0 then
                  ⟨chain1, .maxIterations, none, consumed + 1⟩
                else
                  solveLoop cfg chain1 faVar1 rest (consumed + 1) remaining
            else
              solveLoop cfg (handleToolCalls chain1 toolCalls) faVar1 rest (consumed + 1) remaining

/-- `ReasoningEngine.solve`: run the loop from a fresh IN_PROGRESS chain,
finalize the chain status, and build the result with
`ReasoningResult.from_chain`.  Also returns how many provider turns ran
(for relating the run to its wall-clock duration). -/
def solve (cfg : ReasoningConfigM) (script : List ProviderTurn) :
    ReasoningResultM × Nat :=
  let chain0 : ChainM := { steps := [], status := .inProgress, finalAnswer := none }
  let out := solveLoop cfg chain0 none script 0 cfg.maxIterations
  let finalChain :=
    { out.chain with
      status :=
        if out.stopReason = StopReasonM.completed then StepStatusM.completed
        else StepStatusM.failed }
  (ReasoningResultM.fromChain finalChain out.stopReason out.error, out.consumed)

/-- Total wall-clock time of the provider turns a run consumed (the
engine performs no other blocking work in the model). -/
def elapsedWallClock (script : List ProviderTurn) (consumed : Nat) : ℚ :=
  ((script.take consumed).map turnDuration).foldl (fun a b => a + b) 0

/-! ## Theorems -/

/-- C10: for every chain, stop reason and error argument,
`ReasoningResult.from_chain` produces `success = true` exactly when the
stop reason is `COMPLETED` and the error is `None`, and its
`final_answer` is the chain's `final_answer`. -/
theorem fromChain_success_iff_and_finalAnswer :
    ∀ (chain : ChainM) (reason : StopReasonM) (err : Option String),
      ((ReasoningResultM.fromChain chain reason err).success = true ↔
        (reason = StopReasonM.completed ∧ err = none)) ∧
      (ReasoningResultM.fromChain chain reason err).finalAnswer = chain.finalAnswer := by
  intro chain reason err
  constructor
  · simp [ReasoningResultM.fromChain]
  · rfl

/-- C8 counterexample: a Gemini backend response whose `usageMetadata`
carries `promptTokenCount = 3` and `candidatesTokenCount = 5` but omits
`totalTokenCount` is normalized to `total_tokens = 0`, not to the sum
`3 + 5 = 8`. -/
theorem geminiUsage_omitted_total_is_zero :
    (geminiUsage { promptTokenCount := some 3, candidatesTokenCount := some 5,
                   totalTokenCount := none }).total_tokens = 0 ∧
    (geminiUsage { promptTokenCount := some 3, candidatesTokenCount := some 5,
                   totalTokenCount := none }).prompt_tokens +
      (geminiUsage { promptTokenCount := some 3, candidatesTokenCount := some 5,
                     totalTokenCount := none }).completion_tokens = 8 ∧
    (0 : Nat) ≠ 8 := by
  refine ⟨rfl, rfl, by decide⟩

/-- C8 amended: the Anthropic adapter always computes `total_tokens` as
prompt plus completion; the Gemini adapter reads `totalTokenCount` with
default `0`, so an omitted total becomes `0` rather than the sum; the
OpenAI/Grok adapters copy the backend's total verbatim. -/
theorem usage_total_normalization :
    ∀ (i o p c t : Nat),
      (anthropicUsage i o).total_tokens =
        (anthropicUsage i o).prompt_tokens + (anthropicUsage i o).completion_tokens ∧
      (geminiUsage { promptTokenCount := some p, candidatesTokenCount := some c,
                     totalTokenCount := none }).total_tokens = 0 ∧
      (openaiUsage p c t).total_tokens = t := by
  intro i o p c t
  exact ⟨rfl, rfl, rfl⟩

/-- A take of a take inside an append collapses. -/
theorem takeMid {α : Type} (n : Nat) (as bs : List α) :
    (as ++ bs.take n).take n = (as ++ bs).take n := by
  rw [List.take_append_eq_append_take, List.take_append_eq_append_take,
    List.take_take, Nat.min_eq_left (Nat.sub_le n as.length)]

/-- `lastN` never returns more than `n` elements. -/
theorem lastN_length_le {α : Type} (n : Nat) (l : List α) :
    (lastN n l).length ≤ n := by
  simp [lastN]

/-- `lastN` is the identity on lists within the bound. -/
theorem lastN_of_le {α : Type} (n : Nat) (l : List α) (h : l.length ≤ n) :
    lastN n l = l := by
  unfold lastN
  rw [List.take_of_length_le (by simpa using h), List.reverse_reverse]

/-- Only the last `n` elements matter to `lastN` under later appends. -/
theorem lastN_append_lastN {α : Type} (n : Nat) (xs ys : List α) :
    lastN n (lastN n xs ++ ys) = lastN n (xs ++ ys) := by
  simp only [lastN, List.reverse_append, List.reverse_reverse]
  rw [takeMid]

/-- Recording one execution onto an in-bound history is appending and
keeping the last 1000. -/
theorem recordExecution_eq (hist : List ExecRecordM) (r : ExecRecordM)
    (h : hist.length ≤ 1000) : recordExecution hist r = lastN 1000 (hist ++ [r]) := by
  by_cases hc : 1000 < (hist ++ [r]).length
  · simp only [recordExecution, maxHistorySize]
    rw [if_pos hc]
  · push_neg at hc
    simp only [recordExecution, maxHistorySize]
    rw [if_neg (not_lt.mpr hc), lastN_of_le _ _ hc]

/-- The history after any record sequence from an in-bound start is the
last 1000 of everything seen. -/
theorem foldl_recordExecution (rs : List ExecRecordM) :
    ∀ acc : List ExecRecordM, acc.length ≤ 1000 →
      rs.foldl recordExecution acc = lastN 1000 (acc ++ rs) := by
  induction rs with
  | nil =>
    intro acc h
    simp [lastN_of_le _ _ h]
  | cons r rs ih =>
    intro acc h
    simp only [List.foldl_cons]
    rw [recordExecution_eq acc r h, ih _ (lastN_length_le _ _), lastN_append_lastN]
    simp

/-- The statistics counters always balance. -/
theorem getStatistics_sum (l : List ExecRecordM) :
    (getStatistics l).successful_executions + (getStatistics l).failed_executions =
      (getStatistics l).total_executions := by
  unfold getStatistics
  by_cases h : l.isEmpty
  · simp [h]
  · simp only [h, Bool.false_eq_true, if_false]
    have := List.length_filter_le (fun r => r.success) l
    omega

/-- C9: after any sequence of `execute_tool` calls (each of which records
once), the execution history is exactly the last 1000 records — at most
1000, oldest dropped first — and the statistics satisfy
`successful + failed = total`. -/
theorem executor_history_bounded_and_stats_balance :
    ∀ rs : List ExecRecordM,
      rs.foldl recordExecution [] = lastN 1000 rs ∧
      (rs.foldl recordExecution []).length ≤ 1000 ∧
      (getStatistics (rs.foldl recordExecution [])).successful_executions +
        (getStatistics (rs.foldl recordExecution [])).failed_executions =
        (getStatistics (rs.foldl recordExecution [])).total_executions := by
  intro rs
  have h1 : rs.foldl recordExecution [] = lastN 1000 rs := by
    simpa using foldl_recordExecution rs [] (by simp)
  refine ⟨h1, ?_, getStatistics_sum _⟩
  rw [h1]
  exact lastN_length_le _ _

/-- A node failing claim C2's screen fails the source's per-node check
(the source's dangerous-call set is a superset of the claim's six). -/
theorem nodeOk_false_of_claimBad (n : CNode) (h : claimBadNode n = true) :
    nodeOk true n = false := by
  cases n with
  | importN names =>
    simp only [claimBadNode, List.any_eq_true] at h
    obtain ⟨nm, hmem, hbad⟩ := h
    rw [Bool.not_eq_true'] at hbad
    simp only [nodeOk, Bool.true_and]
    cases hall : names.all (fun nm => SAFE_MODULES.contains (topModule nm)) with
    | false => rfl
    | true =>
      exfalso
      rw [List.all_eq_true] at hall
      have := hall nm hmem
      rw [hbad] at this
      exact Bool.false_ne_true this
  | importFromN mod cs =>
    cases mod with
    | some m =>
      simp only [claimBadNode, Bool.not_eq_true'] at h
      simp only [nodeOk, Bool.true_and]
      exact h
    | none => simp [claimBadNode] at h
  | callN f cs =>
    cases f with
    | some fn =>
      simp only [claimBadNode] at h
      have hmem : fn ∈ (["exec", "eval", "compile", "__import__", "open", "input"] : List String) := by
        simpa using h
      have hdanger : dangerousFuncs.contains fn = true := by
        simp only [List.mem_cons, List.not_mem_nil, or_false] at hmem
        rcases hmem with rfl | rfl | rfl | rfl | rfl | rfl <;> decide
      show (!dangerousFuncs.contains fn) = false
      rw [hdanger]
      rfl
    | none => simp [claimBadNode] at h
  | attributeN a cs =>
    simp only [claimBadNode] at h
    show (!dangerousAttrs.contains a) = false
    rw [h]
    rfl
  | otherN cs => simp [claimBadNode] at h

/-- C2: any program whose AST contains an import outside the module
allow-list, a call to one of the dangerous names, or an access to a
reflective dunder attribute fails `_is_safe_code`, and
`_execute_python` returns a failed `ToolResult` without executing it. -/
theorem code_executor_rejects_bad_programs :
    ∀ prog : List CNode,
      (∃ n ∈ walkProgram prog, claimBadNode n = true) →
      isSafeCode true prog = false ∧
        executePython true prog = ExecOutcome.rejected (error_result "unsafe code or imports") := by
  intro prog h
  obtain ⟨n, hmem, hbad⟩ := h
  have hsafe : isSafeCode true prog = false := by
    unfold isSafeCode
    cases hall : (walkProgram prog).all (nodeOk true) with
    | false => rfl
    | true =>
      exfalso
      rw [List.all_eq_true] at hall
      have := hall n hmem
      rw [nodeOk_false_of_claimBad n hbad] at this
      exact Bool.false_ne_true this
  refine ⟨hsafe, ?_⟩
  simp [executePython, hsafe]

/-- C2 witness: `import os` is caught and rejected before execution. -/
theorem code_executor_rejects_import_os :
    (∃ n ∈ walkProgram [CNode.importN ["os"]], claimBadNode n = true) ∧
    executePython true [CNode.importN ["os"]] =
      ExecOutcome.rejected (error_result "unsafe code or imports") :=
  ⟨by decide, (code_executor_rejects_bad_programs [CNode.importN ["os"]] (by decide)).2⟩

/-- C3: for every behavior of `Path.resolve` (hence any layout of
symlinks), every workspace, operation and path argument, if the resolved
absolute path does not have the resolved workspace root as a prefix then
the tool returns a failed `ToolResult` and performs no filesystem
access. -/
theorem file_ops_escape_rejected :
    ∀ (resolve : List String → List String) (workspace : List String)
      (op : FileOpM) (p : PathArg),
      (resolve workspace).isPrefixOf (resolve (makeAbs workspace p)) = false →
      (executeFileOp resolve workspace op p).1.success = false ∧
        (executeFileOp resolve workspace op p).2 = [] := by
  intro resolve workspace op p h
  simp [executeFileOp, resolvePathF, h, error_result]

/-- C3 witness: in a symlink-free filesystem, a relative path climbing
out of the workspace with `..` is rejected and nothing is touched. -/
theorem file_ops_escape_rejected_witness :
    (normalizeResolve ["home", "user", "ws"]).isPrefixOf
        (normalizeResolve (makeAbs ["home", "user", "ws"]
          { absolute := false, parts := ["..", "..", "..", "etc", "passwd"] })) = false ∧
    (executeFileOp normalizeResolve ["home", "user", "ws"] FileOpM.readOp
        { absolute := false, parts := ["..", "..", "..", "etc", "passwd"] }).1.success = false ∧
    (executeFileOp normalizeResolve ["home", "user", "ws"] FileOpM.readOp
        { absolute := false, parts := ["..", "..", "..", "etc", "passwd"] }).2 = [] :=
  ⟨by decide,
   file_ops_escape_rejected normalizeResolve ["home", "user", "ws"] FileOpM.readOp
     { absolute := false, parts := ["..", "..", "..", "etc", "passwd"] } (by decide)⟩

/-- The schema of the calculator tool, used as a concrete schema in the
`safe_execute` counterexample and witness. -/
def calcSchema : ToolSchemaM :=
  { required := ["expression"], properties := [("expression", JTypeM.stringT)] }

/-- C6 counterexample: with `timeout = 0` Python's `if timeout:` is
false, so no timeout is applied at all: a body running 1 s — longer than
the 0 s timeout — still returns its success result instead of a failed
timeout result. -/
theorem safe_execute_zero_timeout_not_enforced :
    (safeExecute "calculator" calcSchema
        { duration := 1, outcome := Except.ok (success_result "4") }
        [("expression", JValueM.strV "2+2")] (some 0)).success = true ∧
    (0 : ℚ) < 1 := by
  constructor
  · rfl
  · norm_num

/-- C6 amended: `safe_execute` never raises (it is a total function into
`ToolResult`), returns a failed result when a required key is missing or
a value fails its declared primitive type check, returns the timeout
error when a *nonzero* timeout is exceeded, and converts a raised
exception into a failed result carrying the message. -/
theorem safe_execute_amended :
    ∀ (toolName : String) (schema : ToolSchemaM) (args : List (String × JValueM))
      (b : ToolBehavior String) (t : Option ℚ),
      ((∃ r ∈ schema.required, lookupKey args r = none) →
        (safeExecute toolName schema b args t).success = false) ∧
      ((∃ kv ∈ args, ∃ ty, lookupKey schema.properties kv.1 = some ty ∧ typeOk ty kv.2 = false) →
        (safeExecute toolName schema b args t).success = false) ∧
      (∀ tv : ℚ, t = some tv → tv ≠ 0 → tv < b.duration →
        validateArguments schema args = true →
        safeExecute toolName schema b args t = error_result (SafeExecErr.timedOut tv)) ∧
      (∀ m : String, b.outcome = Except.error m →
        validateArguments schema args = true →
        timeoutExpired t b.duration = false →
        safeExecute toolName schema b args t = error_result (SafeExecErr.execFailed m)) := by
  intro toolName schema args b t
  refine ⟨?_, ?_, ?_, ?_⟩
  · intro h
    obtain ⟨r, hr, hnone⟩ := h
    have hall : schema.required.all (fun x => (lookupKey args x).isSome) = false := by
      cases hc : schema.required.all (fun x => (lookupKey args x).isSome) with
      | false => rfl
      | true =>
        exfalso
        rw [List.all_eq_true] at hc
        have := hc r hr
        rw [hnone] at this
        simp at this
    have hv : validateArguments schema args = false := by
      unfold validateArguments
      rw [hall]
      rfl
    simp [safeExecute, hv, error_result]
  · intro h
    obtain ⟨kv, hkv, ty, hty, htyok⟩ := h
    have hall : args.all (fun kv =>
        match lookupKey schema.properties kv.1 with
        | none => true
        | some ty => typeOk ty kv.2) = false := by
      cases hc : args.all (fun kv =>
          match lookupKey schema.properties kv.1 with
          | none => true
          | some ty => typeOk ty kv.2) with
      | false => rfl
      | true =>
        exfalso
        rw [List.all_eq_true] at hc
        have := hc kv hkv
        rw [hty] at this
        simp only at this
        rw [htyok] at this
        exact Bool.false_ne_true this
    have hv : validateArguments schema args = false := by
      unfold validateArguments
      rw [hall]
      simp
    simp [safeExecute, hv, error_result]
  · intro tv ht hne hlt hval
    subst ht
    have hexp : timeoutExpired (some tv) b.duration = true := by
      simp [timeoutExpired, hne, hlt]
    simp [safeExecute, hval, hexp]
  · intro m hm hval hexp
    simp [safeExecute, hval, hexp, hm]

/-- C6 witness: a nonzero timeout of 5 s against a 10 s body produces the
timed-out failure. -/
theorem safe_execute_timeout_witness :
    safeExecute "calculator" calcSchema
        { duration := 10, outcome := Except.ok (success_result "4") }
        [("expression", JValueM.strV "2+2")] (some 5) =
      error_result (SafeExecErr.timedOut 5) :=
  (safe_execute_amended "calculator" calcSchema
      [("expression", JValueM.strV "2+2")]
      { duration := 10, outcome := Except.ok (success_result "4") }
      (some 5)).2.2.1 5 rfl (by norm_num) (by norm_num) (by decide)

mutual

/-- A successful evaluation visits only allow-listed nodes: the operator
and callee checks run before any subterm is evaluated, and every
evaluated subterm must itself succeed. -/
theorem evalNode_ok_allowed (e : PyExpr) :
    ∀ v : PyVal, evalNode e = Except.ok v → allowedExpr e = true := by
  cases e with
  | constNum q => intro v h; rfl
  | constStr s => intro v h; rfl
  | constBool b => intro v h; rfl
  | constNone => intro v h; rfl
  | nameE id =>
    intro v h
    simp only [evalNode] at h
    cases hl : lookupKey SAFE_CONSTANTS id with
    | none => rw [hl] at h; exact Except.noConfusion h
    | some c => simp [allowedExpr, hl]
  | binOp op l r =>
    intro v h
    simp only [evalNode] at h
    by_cases hop : safeBinOp op = true
    · rw [if_pos hop] at h
      cases hl : evalNode l with
      | error e1 => simp only [hl] at h; exact Except.noConfusion h
      | ok lv =>
        simp only [hl] at h
        cases hr : evalNode r with
        | error e2 => simp only [hr] at h; exact Except.noConfusion h
        | ok rv =>
          have hal := evalNode_ok_allowed l lv hl
          have har := evalNode_ok_allowed r rv hr
          simp [allowedExpr, hop, hal, har]
    · rw [if_neg hop] at h
      exact Except.noConfusion h
  | unaryOp op e1 =>
    intro v h
    simp only [evalNode] at h
    by_cases hop : safeUnaryOp op = true
    · rw [if_pos hop] at h
      cases hl : evalNode e1 with
      | error er => simp only [hl] at h; exact Except.noConfusion h
      | ok v1 =>
        have hal := evalNode_ok_allowed e1 v1 hl
        simp [allowedExpr, hop, hal]
    · rw [if_neg hop] at h
      exact Except.noConfusion h
  | callE f args kws =>
    intro v h
    cases f with
    | nameE fn =>
      simp only [evalNode] at h
      by_cases hfn : SAFE_FUNCTIONS.contains fn = true
      · rw [if_pos hfn] at h
        cases ha : evalArgs args with
        | error e1 => simp only [ha] at h; exact Except.noConfusion h
        | ok vs =>
          have hargs := evalArgs_ok_allowed args vs ha
          have hmem : fn ∈ SAFE_FUNCTIONS := by simpa using hfn
          simp [allowedExpr, hmem, hargs]
      · rw [if_neg hfn] at h
        exact Except.noConfusion h
    | constNum q => simp only [evalNode] at h; exact Except.noConfusion h
    | constStr st => simp only [evalNode] at h; exact Except.noConfusion h
    | constBool b => simp only [evalNode] at h; exact Except.noConfusion h
    | constNone => simp only [evalNode] at h; exact Except.noConfusion h
    | binOp op l r => simp only [evalNode] at h; exact Except.noConfusion h
    | unaryOp op e1 => simp only [evalNode] at h; exact Except.noConfusion h
    | callE g as ks => simp only [evalNode] at h; exact Except.noConfusion h
    | listE elts => simp only [evalNode] at h; exact Except.noConfusion h
    | tupleE elts => simp only [evalNode] at h; exact Except.noConfusion h
    | lambdaE => simp only [evalNode] at h; exact Except.noConfusion h
    | attributeE e1 a => simp only [evalNode] at h; exact Except.noConfusion h
  | listE elts =>
    intro v h
    simp only [evalNode] at h
    cases ha : evalArgs elts with
    | error e1 => simp only [ha] at h; exact Except.noConfusion h
    | ok vs =>
      have hargs := evalArgs_ok_allowed elts vs ha
      simpa [allowedExpr] using hargs
  | tupleE elts =>
    intro v h
    simp only [evalNode] at h
    cases ha : evalArgs elts with
    | error e1 => simp only [ha] at h; exact Except.noConfusion h
    | ok vs =>
      have hargs := evalArgs_ok_allowed elts vs ha
      simpa [allowedExpr] using hargs
  | lambdaE =>
    intro v h
    simp only [evalNode] at h
    exact Except.noConfusion h
  | attributeE e1 a =>
    intro v h
    simp only [evalNode] at h
    exact Except.noConfusion h

/-- List version of `evalNode_ok_allowed`. -/
theorem evalArgs_ok_allowed (es : List PyExpr) :
    ∀ vs : List PyVal, evalArgs es = Except.ok vs → allowedList es = true := by
  cases es with
  | nil => intro vs h; rfl
  | cons e es =>
    intro vs h
    simp only [evalArgs] at h
    cases he : evalNode e with
    | error e1 => simp only [he] at h; exact Except.noConfusion h
    | ok v =>
      simp only [he] at h
      cases hes : evalArgs es with
      | error e2 => simp only [hes] at h; exact Except.noConfusion h
      | ok vs2 =>
        have h1 := evalNode_ok_allowed e v he
        have h2 := evalArgs_ok_allowed es vs2 hes
        simp [allowedList, h1, h2]

end

/-- C1 amended: the calculator's `execute` returns a success result only
when every evaluated node of the parsed AST is on the allow-list the code
enforces — which, beyond the claim's list, also admits string, boolean
and `None` constants and list/tuple literals, and never looks at keyword
argument subtrees; everything else yields a failed `ToolResult`, never an
uncaught exception. -/
theorem calculator_success_only_allowed :
    ∀ e : PyExpr, (calcExecute e).success = true → allowedExpr e = true := by
  intro e h
  cases he : evalNode e with
  | ok v => exact evalNode_ok_allowed e v he
  | error err =>
    exfalso
    have hc : calcExecute e = error_result err := by
      simp [calcExecute, he]
    rw [hc] at h
    simp [error_result] at h

/-- C1 witness: `2 + 2` is accepted and is allow-listed. -/
theorem calculator_success_only_allowed_witness :
    (calcExecute (PyExpr.binOp BinOpKind.addK (PyExpr.constNum 2) (PyExpr.constNum 2))).success
        = true ∧
    allowedExpr (PyExpr.binOp BinOpKind.addK (PyExpr.constNum 2) (PyExpr.constNum 2)) = true :=
  ⟨rfl, calculator_success_only_allowed _ rfl⟩

/-- C1 counterexample: the list literal `[1, 2]` parses to a `List` node,
which is outside the claim's allow-list (numeric literals, operators,
calls, constants), yet `_eval_node` has an explicit `ast.List` branch and
the tool returns a success result for it. -/
theorem calculator_accepts_list_literal :
    claimAllowedExpr (PyExpr.listE [PyExpr.constNum 1, PyExpr.constNum 2]) = false ∧
    (calcExecute (PyExpr.listE [PyExpr.constNum 1, PyExpr.constNum 2])).success = true := by
  exact ⟨rfl, rfl⟩

/-- Adding a step never changes the chain status. -/
theorem ChainM.status_addStep (c : ChainM) (s : StepM) :
    (c.addStep s).status = c.status := rfl

/-- Adding a non-tool-call step never changes the tool-call count. -/
theorem ChainM.toolCallsCount_addStep (c : ChainM) (s : StepM)
    (h : s.stepType ≠ StepTypeM.toolCall) :
    (c.addStep s).toolCallsCount = c.toolCallsCount := by
  simp [ChainM.toolCallsCount, ChainM.addStep, List.filter_append, List.filter_cons, h]

/-- A provider turn that is a plain non-answer text reply with no tool
calls: nonempty content from which no final answer can be extracted. -/
def isNonAnswerReply (cfg : ReasoningConfigM) (t : ProviderTurn) : Bool :=
  match t with
  | .reply (some c) [] _ => c ≠ "" && (extractFinalAnswer c cfg.stopPhrases).isNone
  | _ => false

/-- The reasoning loop run on non-answer text replies with no tool calls
exhausts its iterations and stops with `MAX_ITERATIONS`, consuming
exactly one provider turn per iteration. -/
theorem solveLoop_max_iterations (cfg : ReasoningConfigM) :
    ∀ (remaining : Nat) (script : List ProviderTurn) (chain : ChainM)
      (faVar : Option (Option String)) (consumed : Nat),
      0 < remaining → remaining ≤ script.length →
      (∀ t ∈ script, isNonAnswerReply cfg t = true) →
      chain.status = StepStatusM.inProgress →
      chain.toolCallsCount < cfg.maxToolCalls →
      (solveLoop cfg chain faVar script consumed remaining).stopReason =
          StopReasonM.maxIterations ∧
        (solveLoop cfg chain faVar script consumed remaining).consumed =
          consumed + remaining := by
  intro remaining
  induction remaining with
  | zero => intro script chain faVar consumed h0; exact absurd h0 (by omega)
  | succ n ih =>
    intro script chain faVar consumed _h0 hlen hgood hstatus htc
    cases script with
    | nil => simp at hlen
    | cons t rest =>
      have hgt := hgood t (List.mem_cons_self t rest)
      have hcomp : chain.isComplete = false := by
        simp [ChainM.isComplete, hstatus]
      cases t with
      | raiseTimeoutE d => simp [isNonAnswerReply] at hgt
      | raiseOther m d => simp [isNonAnswerReply] at hgt
      | reply content toolCalls d =>
        cases content with
        | none => simp [isNonAnswerReply] at hgt
        | some c =>
          cases toolCalls with
          | cons tc tcs => simp [isNonAnswerReply] at hgt
          | nil =>
            simp only [isNonAnswerReply, Bool.and_eq_true, Option.isNone_iff_eq_none,
              decide_eq_true_eq] at hgt
            obtain ⟨hc, hfa⟩ := hgt
            have hblock : contentBlock cfg chain faVar (some c) =
                Sum.inl
                  (chain.addStep { stepType := .thought, status := .completed, content := some c },
                   some none) := by
              simp [contentBlock, hc, hfa, truthyOptStr]
            simp only [solveLoop, if_neg (by omega : ¬ cfg.maxToolCalls ≤ chain.toolCallsCount),
              hcomp, Bool.false_eq_true, if_false, hblock, List.isEmpty_nil, if_true,
              truthyOptStr]
            cases n with
            | zero => refine ⟨rfl, ?_⟩; simp
            | succ m =>
              have hstep : (chain.addStep
                  { stepType := .thought, status := .completed, content := some c }).status =
                  StepStatusM.inProgress := by
                rw [ChainM.status_addStep]; exact hstatus
              have htc2 : (chain.addStep
                  { stepType := .thought, status := .completed, content := some c }).toolCallsCount
                  < cfg.maxToolCalls := by
                rw [ChainM.toolCallsCount_addStep _ _ (by simp)]; exact htc
              have hrest : ∀ t ∈ rest, isNonAnswerReply cfg t = true := by
                intro x hx; exact hgood x (List.mem_cons_of_mem _ hx)
              have hlen2 : m + 1 ≤ rest.length := by
                simpa using hlen
              have := ih rest
                (chain.addStep { stepType := .thought, status := .completed, content := some c })
                (some none) (consumed + 1) (by omega) hlen2 hrest hstep htc2
              simp only [if_neg (by omega : ¬ (m + 1 = 0))]
              exact ⟨this.1, by omega⟩

/-- `ReasoningResult.from_chain` copies the stop reason unchanged. -/
theorem fromChain_stopReason (c : ChainM) (r : StopReasonM) (e : Option String) :
    (ReasoningResultM.fromChain c r e).stopReason = r := rfl

/-- C5 amended: when the iteration cap is reached on turns of non-answer
text *with no tool calls* (and the tool-call cap is positive, as by
default), the run stops with `MAX_ITERATIONS` after exactly
`max_iterations` provider turns.  (When the final turns carry tool
calls, the loop range is instead exhausted silently — see the
counterexample.) -/
theorem solve_max_iterations_on_non_answer :
    ∀ (cfg : ReasoningConfigM) (script : List ProviderTurn),
      0 < cfg.maxIterations →
      0 < cfg.maxToolCalls →
      cfg.maxIterations ≤ script.length →
      (∀ t ∈ script, isNonAnswerReply cfg t = true) →
      (solve cfg script).1.stopReason = StopReasonM.maxIterations ∧
        (solve cfg script).2 = cfg.maxIterations := by
  intro cfg script h1 h2 h3 h4
  have h := solveLoop_max_iterations cfg cfg.maxIterations script
    { steps := [], status := StepStatusM.inProgress, finalAnswer := none }
    none 0 h1 h3 h4 rfl (by simpa [ChainM.toolCallsCount] using h2)
  constructor
  · show (ReasoningResultM.fromChain _ _ _).stopReason = _
    rw [fromChain_stopReason]
    exact h.1
  · show (solveLoop cfg _ none script 0 cfg.maxIterations).consumed = cfg.maxIterations
    rw [h.2]
    omega

/-- Config for the C5 amended-claim witness. -/
def iterCapConfig : ReasoningConfigM := { maxIterations := 3 }

/-- Script for the C5 amended-claim witness: three turns of non-answer
text with no tool calls. -/
def iterCapScript : List ProviderTurn :=
  List.replicate 3 (ProviderTurn.reply (some "Thinking about the problem.") [] 1)

/-- C5 witness: with `max_iterations = 3` and non-answer text each turn,
the loop exits at iteration 3 with `MAX_ITERATIONS`. -/
theorem solve_max_iterations_witness :
    (0 < iterCapConfig.maxIterations ∧ iterCapConfig.maxIterations ≤ iterCapScript.length ∧
      (∀ t ∈ iterCapScript, isNonAnswerReply iterCapConfig t = true)) ∧
    (solve iterCapConfig iterCapScript).1.stopReason = StopReasonM.maxIterations ∧
    (solve iterCapConfig iterCapScript).2 = 3 :=
  ⟨⟨by decide, by decide, by decide⟩,
   (solve_max_iterations_on_non_answer iterCapConfig iterCapScript
       (by decide) (by decide) (by decide) (by decide)).1,
   (solve_max_iterations_on_non_answer iterCapConfig iterCapScript
       (by decide) (by decide) (by decide) (by decide)).2⟩

/-- Config for the C5 counterexample. -/
def toolTurnsConfig : ReasoningConfigM := { maxIterations := 3 }

/-- Script for the C5 counterexample: every turn emits non-answer text
plus a tool call, so the `MAX_ITERATIONS` branch (which sits in the
no-tool-calls arm) is never reached. -/
def toolTurnsScript : List ProviderTurn :=
  List.replicate 3
    (ProviderTurn.reply (some "Using a tool to make progress.")
      [{ name := "calculator", arguments := "\x7b\x7d" }] 1)

/-- C5 counterexample: the iteration cap is reached with no final answer
extracted and no stop condition triggered (3 tool calls < the default cap
of 20), yet the run exits with `COMPLETED` — and even reports
`success = true` with `final_answer = None` — instead of
`MAX_ITERATIONS`. -/
theorem solve_completed_despite_iteration_cap :
    (solve toolTurnsConfig toolTurnsScript).1.stopReason = StopReasonM.completed ∧
    (solve toolTurnsConfig toolTurnsScript).1.stopReason ≠ StopReasonM.maxIterations ∧
    (solve toolTurnsConfig toolTurnsScript).1.finalAnswer = none ∧
    (solve toolTurnsConfig toolTurnsScript).1.stats.tool_calls = 3 ∧
    (solve toolTurnsConfig toolTurnsScript).2 = 3 ∧
    (solve toolTurnsConfig toolTurnsScript).1.success = true := by
  decide

/-- Config for the C4 failing run: one iteration, the default 300 s
chain timeout. -/
def slowRunConfig : ReasoningConfigM := { maxIterations := 1 }

/-- Script for the C4 failing run: a single provider turn that takes
400 s of wall-clock time. -/
def slowRunScript : List ProviderTurn :=
  [ProviderTurn.reply (some "Still thinking about the problem.") [] 400]

/-- C4: a run whose wall-clock time (400 s) exceeds the configured chain
timeout (`ReasoningConfig.timeout = 300` s) does not stop with
`TIMEOUT`: the engine never reads `config.timeout` or any clock for the
chain, so the run ends with `MAX_ITERATIONS`. -/
theorem solve_exceeds_timeout_without_timeout_stop :
    slowRunConfig.timeout = 300 ∧
    elapsedWallClock slowRunScript (solve slowRunConfig slowRunScript).2 = 400 ∧
    slowRunConfig.timeout <
      elapsedWallClock slowRunScript (solve slowRunConfig slowRunScript).2 ∧
    (solve slowRunConfig slowRunScript).1.stopReason = StopReasonM.maxIterations ∧
    (solve slowRunConfig slowRunScript).1.stopReason ≠ StopReasonM.timeout := by
  have hc : (solve slowRunConfig slowRunScript).2 = 1 := by decide
  have he : elapsedWallClock slowRunScript 1 = 400 := by
    norm_num [elapsedWallClock, slowRunScript, turnDuration]
  refine ⟨rfl, ?_, ?_, by decide, by decide⟩
  · rw [hc, he]
  · rw [hc, he]
    show (300 : ℚ) < 400
    norm_num

/-- The token-trim loop only ever drops messages from the front: its
result is a suffix of its input. -/
theorem tokenTrim_suffix (sys : List MessageM) (cap : Nat) :
    ∀ l : List MessageM, tokenTrim sys cap l <:+ l := by
  intro l
  induction l with
  | nil => exact List.suffix_refl _
  | cons m rest ih =>
    simp only [tokenTrim]
    split
    · exact ih.trans (List.suffix_cons m rest)
    · exact List.suffix_refl _

/-- The count trim keeps a suffix. -/
theorem countTrim_suffix (mmOpt : Option Nat) (l : List MessageM) :
    countTrim mmOpt l <:+ l := by
  cases mmOpt with
  | none => exact List.suffix_refl _
  | some mm =>
    simp only [countTrim]
    split
    · exact List.drop_suffix _ _
    · exact List.suffix_refl _

/-- The optional token trim keeps a suffix. -/
theorem tokenTrimOpt_suffix (mtOpt : Option Nat) (sys l : List MessageM) :
    tokenTrimOpt mtOpt sys l <:+ l := by
  cases mtOpt with
  | none => exact List.suffix_refl _
  | some mt =>
    simp only [tokenTrimOpt]
    split
    · exact tokenTrim_suffix sys mt l
    · exact List.suffix_refl _

/-- With a nonzero count cap, the count trim leaves at most `mm`
messages. -/
theorem countTrim_length (mm : Nat) (l : List MessageM) (hne : mm ≠ 0) :
    (countTrim (some mm) l).length ≤ mm := by
  simp only [countTrim]
  by_cases hc : mm < l.length
  · rw [if_pos ⟨hne, hc⟩, List.length_drop]
    omega
  · rw [if_neg (by tauto)]
    omega

/-- The token-trim loop stops only when the estimate fits the cap or a
single message remains. -/
theorem tokenTrim_post (sys : List MessageM) (cap : Nat) :
    ∀ l : List MessageM,
      estimateTokens (sys ++ tokenTrim sys cap l) ≤ cap ∨
        (tokenTrim sys cap l).length ≤ 1 := by
  intro l
  induction l with
  | nil => right; simp [tokenTrim]
  | cons m rest ih =>
    simp only [tokenTrim]
    by_cases hc : cap < estimateTokens (sys ++ m :: rest) ∧ rest ≠ []
    · rw [if_pos hc]
      exact ih
    · rw [if_neg hc]
      push_neg at hc
      by_cases he : cap < estimateTokens (sys ++ m :: rest)
      · right
        rw [hc he]
        simp
      · left
        omega

/-- The caps of a conversation with a truthy token cap are not both
falsy. -/
theorem caps_not_falsy_of_tokens (conv : ConvM) (mt : Nat)
    (h : conv.maxTokens = some mt) (hne : mt ≠ 0) :
    (!truthyCap conv.maxMessages && !truthyCap conv.maxTokens) = false := by
  simp [truthyCap, h, hne]

/-- The caps of a conversation with a truthy message cap are not both
falsy. -/
theorem caps_not_falsy_of_messages (conv : ConvM) (mm : Nat)
    (h : conv.maxMessages = some mm) (hne : mm ≠ 0) :
    (!truthyCap conv.maxMessages && !truthyCap conv.maxTokens) = false := by
  simp [truthyCap, h, hne]

/-- In the trimming branch, the messages decompose into the system
messages followed by the trimmed non-system messages. -/
theorem trim_messages_eq (conv : ConvM)
    (h : (!truthyCap conv.maxMessages && !truthyCap conv.maxTokens) = false) :
    (trimHistory conv).messages =
      conv.messages.filter (fun m => isSystemMsg m) ++
        tokenTrimOpt conv.maxTokens (conv.messages.filter (fun m => isSystemMsg m))
          (countTrim conv.maxMessages (conv.messages.filter (fun m => !isSystemMsg m))) := by
  simp [trimHistory, h]

/-- Every message surviving the two trims is non-system. -/
theorem trimmed_mem_nonSys (conv : ConvM) (a : MessageM)
    (ha : a ∈ tokenTrimOpt conv.maxTokens (conv.messages.filter (fun m => isSystemMsg m))
        (countTrim conv.maxMessages (conv.messages.filter (fun m => !isSystemMsg m)))) :
    isSystemMsg a = false := by
  have h1 : a ∈ conv.messages.filter (fun m => !isSystemMsg m) :=
    ((tokenTrimOpt_suffix _ _ _).trans (countTrim_suffix _ _)).subset ha
  have h2 := List.of_mem_filter h1
  simpa using h2

/-- Trimming never removes (nor adds) a system message. -/
theorem trim_preserves_system (conv : ConvM) :
    (trimHistory conv).messages.filter (fun m => isSystemMsg m) =
      conv.messages.filter (fun m => isSystemMsg m) := by
  by_cases h : (!truthyCap conv.maxMessages && !truthyCap conv.maxTokens) = true
  · simp [trimHistory, h]
  · rw [Bool.not_eq_true] at h
    rw [trim_messages_eq conv h, List.filter_append]
    have h1 : (conv.messages.filter (fun m => isSystemMsg m)).filter
        (fun m => isSystemMsg m) = conv.messages.filter (fun m => isSystemMsg m) :=
      List.filter_eq_self.mpr (fun a ha => List.of_mem_filter ha)
    have h2 : (tokenTrimOpt conv.maxTokens
        (conv.messages.filter (fun m => isSystemMsg m))
        (countTrim conv.maxMessages (conv.messages.filter (fun m => !isSystemMsg m)))).filter
          (fun m => isSystemMsg m) = [] := by
      apply List.filter_eq_nil_iff.mpr
      intro a ha
      simp [trimmed_mem_nonSys conv a ha]
    rw [h1, h2, List.append_nil]

/-- The non-system messages after trimming are a suffix of the
non-system messages before it: only the oldest are dropped. -/
theorem trim_nonSys_suffix (conv : ConvM) :
    (trimHistory conv).messages.filter (fun m => !isSystemMsg m) <:+
      conv.messages.filter (fun m => !isSystemMsg m) := by
  by_cases h : (!truthyCap conv.maxMessages && !truthyCap conv.maxTokens) = true
  · simp only [trimHistory, h, if_true]
    exact List.suffix_refl _
  · rw [Bool.not_eq_true] at h
    rw [trim_messages_eq conv h, List.filter_append]
    have h1 : (conv.messages.filter (fun m => isSystemMsg m)).filter
        (fun m => !isSystemMsg m) = [] := by
      apply List.filter_eq_nil_iff.mpr
      intro a ha
      simp [List.of_mem_filter ha]
    have h2 : (tokenTrimOpt conv.maxTokens
        (conv.messages.filter (fun m => isSystemMsg m))
        (countTrim conv.maxMessages (conv.messages.filter (fun m => !isSystemMsg m)))).filter
          (fun m => !isSystemMsg m) =
        tokenTrimOpt conv.maxTokens (conv.messages.filter (fun m => isSystemMsg m))
          (countTrim conv.maxMessages (conv.messages.filter (fun m => !isSystemMsg m))) :=
      List.filter_eq_self.mpr (fun a ha => by simp [trimmed_mem_nonSys conv a ha])
    rw [h1, h2, List.nil_append]
    exact (tokenTrimOpt_suffix _ _ _).trans (countTrim_suffix _ _)

/-- With a truthy message-count cap, trimming leaves at most that many
non-system messages. -/
theorem trim_count_cap (conv : ConvM) (mm : Nat)
    (h : conv.maxMessages = some mm) (hne : mm ≠ 0) :
    ((trimHistory conv).messages.filter (fun m => !isSystemMsg m)).length ≤ mm := by
  have hsuffix := trim_nonSys_suffix conv
  have hb := caps_not_falsy_of_messages conv mm h hne
  rw [trim_messages_eq conv hb, List.filter_append] at hsuffix ⊢
  have h1 : (conv.messages.filter (fun m => isSystemMsg m)).filter
      (fun m => !isSystemMsg m) = [] := by
    apply List.filter_eq_nil_iff.mpr
    intro a ha
    simp [List.of_mem_filter ha]
  have h2 : (tokenTrimOpt conv.maxTokens
      (conv.messages.filter (fun m => isSystemMsg m))
      (countTrim conv.maxMessages (conv.messages.filter (fun m => !isSystemMsg m)))).filter
        (fun m => !isSystemMsg m) =
      tokenTrimOpt conv.maxTokens (conv.messages.filter (fun m => isSystemMsg m))
        (countTrim conv.maxMessages (conv.messages.filter (fun m => !isSystemMsg m))) :=
    List.filter_eq_self.mpr (fun a ha => by simp [trimmed_mem_nonSys conv a ha])
  rw [h1, h2, List.nil_append]
  calc (tokenTrimOpt conv.maxTokens _ _).length
      ≤ (countTrim conv.maxMessages
          (conv.messages.filter (fun m => !isSystemMsg m))).length :=
        (tokenTrimOpt_suffix _ _ _).length_le
    _ ≤ mm := by rw [h]; exact countTrim_length mm _ hne

/-- With a truthy token cap, trimming either reaches the cap or bottoms
out at a single non-system message. -/
theorem trim_token_cap (conv : ConvM) (mt : Nat)
    (h : conv.maxTokens = some mt) (hne : mt ≠ 0) :
    estimateTokens (trimHistory conv).messages ≤ mt ∨
      ((trimHistory conv).messages.filter (fun m => !isSystemMsg m)).length ≤ 1 := by
  have hb := caps_not_falsy_of_tokens conv mt h hne
  rw [trim_messages_eq conv hb]
  have h2 : (tokenTrimOpt conv.maxTokens
      (conv.messages.filter (fun m => isSystemMsg m))
      (countTrim conv.maxMessages (conv.messages.filter (fun m => !isSystemMsg m)))).filter
        (fun m => !isSystemMsg m) =
      tokenTrimOpt conv.maxTokens (conv.messages.filter (fun m => isSystemMsg m))
        (countTrim conv.maxMessages (conv.messages.filter (fun m => !isSystemMsg m))) :=
    List.filter_eq_self.mpr (fun a ha => by simp [trimmed_mem_nonSys conv a ha])
  have h1 : (conv.messages.filter (fun m => isSystemMsg m)).filter
      (fun m => !isSystemMsg m) = [] := by
    apply List.filter_eq_nil_iff.mpr
    intro a ha
    simp [List.of_mem_filter ha]
  rw [List.filter_append, h1, h2, List.nil_append]
  have := tokenTrim_post (conv.messages.filter (fun m => isSystemMsg m)) mt
    (countTrim conv.maxMessages (conv.messages.filter (fun m => !isSystemMsg m)))
  rw [h]
  simp only [tokenTrimOpt]
  rw [if_pos hne]
  exact this

/-- Every message after index 0 is non-system: captures both "at most one
system message" and "the system message sits at index 0". -/
def TailNoSystem (msgs : List MessageM) : Prop :=
  ∀ m ∈ msgs.drop 1, isSystemMsg m = false

/-- Appending a non-system message preserves the invariant. -/
theorem tailNoSystem_append (msgs : List MessageM) (m : MessageM)
    (hm : isSystemMsg m = false) (h : TailNoSystem msgs) :
    TailNoSystem (msgs ++ [m]) := by
  cases msgs with
  | nil =>
    intro x hx
    simp at hx
  | cons a t =>
    intro x hx
    rw [List.cons_append, List.drop_succ_cons, List.drop_zero] at hx
    rcases List.mem_append.mp hx with hx1 | hx2
    · exact h x (by simpa using hx1)
    · rw [List.mem_singleton.mp hx2]
      exact hm

/-- Under the invariant there is at most one system message. -/
theorem sysFilter_len_le_one (msgs : List MessageM) (h : TailNoSystem msgs) :
    (msgs.filter (fun m => isSystemMsg m)).length ≤ 1 := by
  cases msgs with
  | nil => simp
  | cons a t =>
    have ht : t.filter (fun m => isSystemMsg m) = [] := by
      apply List.filter_eq_nil_iff.mpr
      intro x hx
      simp [h x (by simpa using hx)]
    rw [List.filter_cons, ht]
    split <;> simp

/-- A short system block followed by only non-system messages satisfies
the invariant. -/
theorem tailNoSystem_of_short_sys (S T : List MessageM) (hS : S.length ≤ 1)
    (hT : ∀ x ∈ T, isSystemMsg x = false) : TailNoSystem (S ++ T) := by
  cases S with
  | nil =>
    intro x hx
    exact hT x ((List.drop_subset 1 T) hx)
  | cons s tl =>
    have htl : tl = [] := by
      cases tl with
      | nil => rfl
      | cons b tb =>
        exfalso
        have h2 : tb.length + 2 ≤ 1 := by simpa using hS
        omega
    subst htl
    intro x hx
    rw [List.cons_append, List.drop_succ_cons, List.drop_zero, List.nil_append] at hx
    exact hT x hx

/-- Trimming preserves the invariant (for any conversation). -/
theorem trim_tail_no_system (conv : ConvM) (h : TailNoSystem conv.messages) :
    TailNoSystem (trimHistory conv).messages := by
  by_cases hb : (!truthyCap conv.maxMessages && !truthyCap conv.maxTokens) = true
  · simpa [trimHistory, hb] using h
  · rw [Bool.not_eq_true] at hb
    rw [trim_messages_eq conv hb]
    exact tailNoSystem_of_short_sys _ _ (sysFilter_len_le_one _ h)
      (fun x hx => trimmed_mem_nonSys conv x hx)

/-- Every public role-specific operation preserves the invariant. -/
theorem applyConvOp_tail_no_system (conv : ConvM) (op : ConvOp)
    (h : TailNoSystem conv.messages) :
    TailNoSystem (applyConvOp conv op).messages := by
  cases op with
  | addSystem c =>
    intro x hx
    simp only [applyConvOp, addSystemMessage, List.drop_succ_cons, List.drop_zero] at hx
    have := List.of_mem_filter hx
    simpa using this
  | addUser c =>
    exact trim_tail_no_system _ (tailNoSystem_append _ _ rfl h)
  | addAssistant c tcs =>
    exact trim_tail_no_system _ (tailNoSystem_append _ _ rfl h)
  | addTool id name c =>
    exact trim_tail_no_system _ (tailNoSystem_append _ _ rfl h)
  | clearOp k =>
    have hshape : (applyConvOp conv (ConvOp.clearOp k)).messages = [] ∨
        ∃ m, (applyConvOp conv (ConvOp.clearOp k)).messages = [m] := by
      simp only [applyConvOp, clearConv]
      split
      · cases conv.messages with
        | nil => left; rfl
        | cons m t =>
          by_cases hm : isSystemMsg m = true
          · right; exact ⟨m, by simp [hm]⟩
          · left; simp [hm]
      · left; rfl
    rcases hshape with h0 | ⟨m, h1⟩
    · intro x hx
      rw [h0] at hx
      simp at hx
    · intro x hx
      rw [h1] at hx
      simp at hx

/-- A fresh conversation manager satisfies the invariant. -/
theorem initConv_tail_no_system (sysM : Option String) (maxM maxT : Option Nat) :
    TailNoSystem (initConv sysM maxM maxT).messages := by
  cases sysM with
  | none =>
    intro x hx
    simp [initConv] at hx
  | some s =>
    intro x hx
    simp [initConv, addSystemMessage] at hx

/-- The invariant survives any operation sequence. -/
theorem runConvOps_tail_no_system (init : ConvM) (ops : List ConvOp)
    (h : TailNoSystem init.messages) :
    TailNoSystem (runConvOps init ops).messages := by
  induction ops generalizing init with
  | nil => exact h
  | cons op ops ih =>
    simp only [runConvOps, List.foldl_cons]
    exact ih _ (applyConvOp_tail_no_system init op h)

/-- C7 amended: over every sequence of the role-specific operations every
message after index 0 is non-system (hence at most one system message and
always at index 0); trimming never removes (or adds) a system message;
with a truthy message-count cap at most that many non-system messages
survive a trim; with a truthy token cap, a trim ends with the 4-chars-per
-token estimate within the cap *or* with a single non-system message left
(the `while` loop also stops at one remaining message, even above the
cap); and trimming drops only the oldest non-system messages (the
survivors are a suffix). -/
theorem conversation_invariants :
    (∀ (sysM : Option String) (maxM maxT : Option Nat) (ops : List ConvOp),
       ∀ m ∈ (runConvOps (initConv sysM maxM maxT) ops).messages.drop 1,
         isSystemMsg m = false) ∧
    (∀ conv : ConvM,
       (trimHistory conv).messages.filter (fun m => isSystemMsg m) =
         conv.messages.filter (fun m => isSystemMsg m)) ∧
    (∀ (conv : ConvM) (mm : Nat), conv.maxMessages = some mm → mm ≠ 0 →
       ((trimHistory conv).messages.filter (fun m => !isSystemMsg m)).length ≤ mm) ∧
    (∀ (conv : ConvM) (mt : Nat), conv.maxTokens = some mt → mt ≠ 0 →
       estimateTokens (trimHistory conv).messages ≤ mt ∨
         ((trimHistory conv).messages.filter (fun m => !isSystemMsg m)).length ≤ 1) ∧
    (∀ conv : ConvM,
       (trimHistory conv).messages.filter (fun m => !isSystemMsg m) <:+
         conv.messages.filter (fun m => !isSystemMsg m)) :=
  ⟨fun sysM maxM maxT ops =>
      runConvOps_tail_no_system _ ops (initConv_tail_no_system sysM maxM maxT),
   trim_preserves_system, trim_count_cap, trim_token_cap, trim_nonSys_suffix⟩

/-- A conversation with three user messages and a count cap of 2, for the
C7 witness. -/
def threeUserConv : ConvM :=
  { messages :=
      [{ role := RoleM.user, content := some "a" },
       { role := RoleM.user, content := some "b" },
       { role := RoleM.user, content := some "c" }]
    systemMessage := none
    maxMessages := some 2
    maxTokens := none }

/-- C7 witness: the count cap of 2 holds after a trim of three non-system
messages. -/
theorem conversation_invariants_witness :
    (threeUserConv.maxMessages = some 2 ∧ (2 : Nat) ≠ 0) ∧
    ((trimHistory threeUserConv).messages.filter (fun m => !isSystemMsg m)).length ≤ 2 :=
  ⟨⟨rfl, by decide⟩, conversation_invariants.2.2.1 threeUserConv 2 rfl (by decide)⟩

/-- C7 counterexample: with a token cap of 1 a single 8-character user
message estimates to 2 tokens, above the cap, and trimming leaves it in
place (`len(other_msgs) > 1` fails), so the cap does *not* hold after
trimming. -/
theorem conversation_token_cap_not_reached :
    (addUserMessage (initConv none none (some 1)) "12345678").maxTokens = some 1 ∧
    estimateTokens (addUserMessage (initConv none none (some 1)) "12345678").messages = 2 ∧
    ((addUserMessage (initConv none none (some 1)) "12345678").messages.filter
        (fun m => !isSystemMsg m)).length = 1 := by
  decide
